import Mathlib

/-!
Shallow embedding of `giffer.py`, a command-line tool that extracts a
time-bounded range of frames from a video and encodes them as an animated
gif.  Python ints are modelled with `ℤ`/`ℕ`, Python floats with `ℚ`,
fallible code with `Except`.  The external video decoder (cv2) and gif
encoder (imageio) are modelled by a cursor state and an effect log; the
decoder contract follows the specification's SEEK step.
-/

/-- Python `int()` applied to a non-integral number truncates toward zero. -/
def pyInt (q : ℚ) : ℤ := if 0 ≤ q then ⌊q⌋ else ⌈q⌉

/-- Python `str.lower()` used on the color and font-face names, modelled
on the underlying character list (all table keys are ASCII). -/
def pyLower (s : String) : String := ⟨s.data.map Char.toLower⟩

/-- Errors raised by the program.  The constructors other than
`invalidScale` model `GifferError` messages distinguished by text;
`invalidScale` models the `ValueError` raised inside `find_subtitle_info`
when the scale drops to or below zero. -/
inductive GifferError where
  | unreadable
  | cantScaleLarger
  | wontFit
  | invalidScale
  | readFail (i : ℤ)
  | unsupportedColor (c : String)
  | unsupportedFont (f : String)
  deriving DecidableEq

/-- Color lookup table of giffer.py lines 9-17: maps a color name to an
RGB triple, `none` for names outside the fixed palette (modelling a
`KeyError` on the Python dict). -/
def colors : String → Option (ℕ × ℕ × ℕ)
  | "red" => some (255, 0, 0)
  | "orange" => some (255, 165, 0)
  | "yellow" => some (255, 255, 0)
  | "green" => some (0, 128, 0)
  | "blue" => some (0, 0, 255)
  | "purple" => some (128, 0, 128)
  | "white" => some (255, 255, 255)
  | "black" => some (0, 0, 0)
  | "gray" => some (128, 128, 128)
  | _ => none

/-- The eight cv2 Hershey font constants used by the table on
giffer.py lines 20-27, modelled as opaque tokens. -/
inductive Cv2Font where
  | FONT_HERSHEY_COMPLEX
  | FONT_HERSHEY_COMPLEX_SMALL
  | FONT_HERSHEY_DUPLEX
  | FONT_HERSHEY_PLAIN
  | FONT_HERSHEY_SCRIPT_COMPLEX
  | FONT_HERSHEY_SCRIPT_SIMPLEX
  | FONT_HERSHEY_SIMPLEX
  | FONT_HERSHEY_TRIPLEX
  deriving DecidableEq

/-- Font-face lookup table of giffer.py lines 20-27. -/
def font_faces : String → Option Cv2Font
  | "complex" => some .FONT_HERSHEY_COMPLEX
  | "complex_small" => some .FONT_HERSHEY_COMPLEX_SMALL
  | "duplex" => some .FONT_HERSHEY_DUPLEX
  | "plain" => some .FONT_HERSHEY_PLAIN
  | "script_complex" => some .FONT_HERSHEY_SCRIPT_COMPLEX
  | "script_simplex" => some .FONT_HERSHEY_SCRIPT_SIMPLEX
  | "simplex" => some .FONT_HERSHEY_SIMPLEX
  | "triplex" => some .FONT_HERSHEY_TRIPLEX
  | _ => none

/-- Frame stride of giffer.py line 33, used to down-sample the source. -/
def FRAME_STEP_SIZE : ℕ := 2

/-- Model of `get_start_and_end_frame` (giffer.py lines 42-59): reads the
source frame rate `fps` and converts the two times into frame indices by
`int(fps * t)`. -/
def get_start_and_end_frame (fps start_time end_time : ℚ) : ℤ × ℤ :=
  let start_frame := pyInt (fps * start_time)
  let end_frame := pyInt (fps * end_time)
  (start_frame, end_frame)

/-- Model of `get_output_dimensions` (giffer.py lines 62-93).
`firstFrame` is the result of decoding the first frame: `some (w, h)`
carries the native width and height taken from `frame.shape`, `none`
models a failed read.  `max_dimension` is the optional CLI integer; the
Python truthiness test `if max_dimension:` is false for `None` and for
`0`, so both are matched to the pass-through branch. -/
def get_output_dimensions (firstFrame : Option (ℕ × ℕ)) (max_dimension : Option ℤ) :
    Except GifferError (ℤ × ℤ) :=
  match firstFrame with
  | none => .error .unreadable
  | some (width, height) =>
    let max_input_dimension : ℤ := ((max width height : ℕ) : ℤ)
    match max_dimension with
    | some m =>
      if m ≠ 0 then
        if m > max_input_dimension then .error .cantScaleLarger
        else
          let scaling_factor : ℚ := (m : ℚ) / (max_input_dimension : ℚ)
          let output_width := pyInt ((width : ℚ) * scaling_factor)
          let output_height := pyInt ((height : ℚ) * scaling_factor)
          .ok (output_width, output_height)
      else .ok ((width : ℤ), (height : ℤ))
    | none => .ok ((width : ℤ), (height : ℤ))

/-- One iteration of the `while 1` loop of `find_subtitle_info`
(giffer.py lines 110-121), with fuel making the recursion structural.
`getTextSize` abstracts `cv2.getTextSize` with the subtitle text, the
font face and the line width already fixed: from a scale it returns the
rendered bounding box `(width, height)` and the baseline offset.  The
fuel never runs out when the loop is entered at scale 10, because the
post-decrement check `scale <= 0` fires after at most 99 decrements. -/
def fitAux (getTextSize : ℚ → (ℕ × ℕ) × ℕ) (max_width desired_height : ℤ) :
    ℕ → ℚ → Except GifferError ((ℕ × ℕ) × ℕ × ℚ)
  | 0, _ => .error .invalidScale
  | fuel + 1, scale =>
    let r := getTextSize scale
    if (r.1.2 : ℤ) > desired_height then
      let scale2 := scale - 1 / 10
      if scale2 ≤ 0 then .error .invalidScale
      else fitAux getTextSize max_width desired_height fuel scale2
    else if (r.1.1 : ℤ) > max_width then .error .wontFit
    else .ok (r.1, r.2, scale)

/-- Model of `find_subtitle_info` (giffer.py lines 96-121): starts the
search at scale 10 with `max_width = dimension[0]`.  Fuel 100 covers the
longest possible run of the source loop (scales 10, 9.9, ..., 0.1). -/
def find_subtitle_info (getTextSize : ℚ → (ℕ × ℕ) × ℕ) (dimension : ℤ × ℤ)
    (desired_height : ℤ) : Except GifferError ((ℕ × ℕ) × ℕ × ℚ) :=
  fitAux getTextSize dimension.1 desired_height 100 10

/-- Decoder state: the index of the frame the next read will produce. -/
structure Decoder where
  nextFrame : ℕ
  deriving DecidableEq

/-- Modelled from the spec: the cv2 seek contract of section 4.4 SEEK —
"position the decode cursor at start_frame − 1 (so the first produced
read yields start_frame)".  Positioning the cursor at `k` makes the next
read produce frame `k + 1` (clamped below at frame 0). -/
def Decoder.seek (k : ℤ) : Decoder := ⟨(k + 1).toNat⟩

/-- Modelled from the spec: a read on a source with `totalFrames` frames
(indexed `0 .. totalFrames - 1`) yields the frame under the cursor and
advances, or fails leaving the cursor in place when the source is
exhausted. -/
def Decoder.read (totalFrames : ℕ) (d : Decoder) : Option ℕ × Decoder :=
  if d.nextFrame < totalFrames then (some d.nextFrame, ⟨d.nextFrame + 1⟩)
  else (none, d)

/-- The discard loop on giffer.py lines 172-175: performs `n` reads whose
results are thrown away (read failures here are ignored). -/
def skipReads (totalFrames : ℕ) : ℕ → Decoder → Decoder
  | 0, d => d
  | n + 1, d => skipReads totalFrames n (Decoder.read totalFrames d).2

/-- The frame loop of `make_gif` (giffer.py lines 151-175): `K` counts
the remaining iterations of `range(start_frame, end_frame + 1,
FRAME_STEP_SIZE)` and `i` is the loop variable (used only in the error
message).  Returns the list of frame indices appended to the writer and
the final outcome. -/
def gifLoop (totalFrames : ℕ) : ℕ → ℤ → Decoder → List ℕ × Except GifferError Unit
  | 0, _, _ => ([], .ok ())
  | K + 1, i, d =>
    match d.read totalFrames with
    | (none, _) => ([], .error (.readFail i))
    | (some frame, d1) =>
      let d2 := if FRAME_STEP_SIZE > 1 then skipReads totalFrames (FRAME_STEP_SIZE - 1) d1
                else d1
      let rest := gifLoop totalFrames K (i + 2) d2
      (frame :: rest.1, rest.2)

/-- Number of iterations of `range(start_frame, end_frame + 1,
FRAME_STEP_SIZE)`. -/
def gifIterCount (start_frame end_frame : ℤ) : ℕ :=
  if start_frame ≤ end_frame then (end_frame - start_frame).toNat / FRAME_STEP_SIZE + 1
  else 0

/-- Frames read and appended by `make_gif` (giffer.py lines 148-175):
seek to `start_frame - 1`, then run the stepped loop. -/
def make_gif_frames (totalFrames : ℕ) (start_frame end_frame : ℤ) :
    List ℕ × Except GifferError Unit :=
  gifLoop totalFrames (gifIterCount start_frame end_frame) start_frame
    (Decoder.seek (start_frame - 1))

/-- Symbolic image values, tracking which cv2 operations the per-frame
body of `make_gif` applied to a decoded frame. -/
inductive Img where
  | raw (i : ℕ)
  | cvtColor (f : Img)
  | resize (f : Img) (dim : ℤ × ℤ)
  | putText (f : Img)
  deriving DecidableEq

/-- Python truthiness of the `dimension` tuple tested on giffer.py line
157: a two-element tuple is non-empty, hence always truthy, whatever its
components are. -/
def pyTruthyPair (_ : ℤ × ℤ) : Bool := true

/-- Per-frame processing of `make_gif` (giffer.py lines 156-168): color
conversion, then the resize guarded by `if dimension:`, then the caption
when a subtitle was given. -/
def processFrame (dimension : ℤ × ℤ) (subtitle : Bool) (f : Img) : Img :=
  let rgb_frame := Img.cvtColor f
  let rgb_frame := if pyTruthyPair dimension then Img.resize rgb_frame dimension
                   else rgb_frame
  if subtitle then Img.putText rgb_frame else rgb_frame

/-- Whether any resize operation occurs in the history of an image. -/
def Img.hasResize : Img → Bool
  | raw _ => false
  | cvtColor f => f.hasResize
  | resize _ _ => true
  | putText f => f.hasResize

/-- Externally visible events of one invocation: decoding the first
frame in `get_output_dimensions`, opening the gif writer, appending a
frame to it, and closing it. -/
inductive Effect where
  | decodeFrame
  | openWriter
  | append (i : ℕ)
  | closeWriter
  deriving DecidableEq

/-- Model of `make_gif` (giffer.py lines 124-175) at the level of
effects: the subtitle layout is computed first (before the video and the
writer are opened), then the writer is opened, the frame loop runs, and
the `with` block closes the writer on every path, error included. -/
def make_gif_effects (totalFrames : ℕ) (start_frame end_frame : ℤ) (dimension : ℤ × ℤ)
    (subtitle : Option (ℚ → (ℕ × ℕ) × ℕ)) (text_size : ℤ) :
    List Effect × Except GifferError Unit :=
  let run : List Effect × Except GifferError Unit :=
    let res := make_gif_frames totalFrames start_frame end_frame
    (Effect.openWriter :: res.1.map Effect.append ++ [Effect.closeWriter], res.2)
  match subtitle with
  | some getTextSize =>
    match find_subtitle_info getTextSize dimension text_size with
    | .error e => ([], .error e)
    | .ok _ => run
  | none => run

/-- Model of the CLI entry point `giffer` (giffer.py lines 191-223):
frame-range computation, dimension computation (which decodes the first
frame when the source is readable), color lookup, font lookup, then
`make_gif`.  `firstFrame` and `totalFrames` describe the source video;
loop count and duration are passed through to the writer unchanged and
are not observable in this model. -/
def giffer (fps start_time end_time : ℚ) (firstFrame : Option (ℕ × ℕ))
    (totalFrames : ℕ) (max_dimension : Option ℤ) (color font_face : String)
    (subtitle : Option (ℚ → (ℕ × ℕ) × ℕ)) (text_size : ℤ) :
    List Effect × Except GifferError Unit :=
  let fr := get_start_and_end_frame fps start_time end_time
  let dlog := if firstFrame.isSome then [Effect.decodeFrame] else []
  match get_output_dimensions firstFrame max_dimension with
  | .error e => (dlog, .error e)
  | .ok output_dim =>
    match colors (pyLower color) with
    | none => (dlog, .error (.unsupportedColor color))
    | some _ =>
      match font_faces (pyLower font_face) with
      | none => (dlog, .error (.unsupportedFont font_face))
      | some _ =>
        let res := make_gif_effects totalFrames fr.1 fr.2 output_dim subtitle text_size
        (dlog ++ res.1, res.2)

lemma pyInt_eq_floor {q : ℚ} (h : 0 ≤ q) : pyInt q = ⌊q⌋ := if_pos h

/-- C2: for every fps > 0 and every pair of times with 0 ≤ start < end,
`get_start_and_end_frame` returns the floors of fps × start and
fps × end, and the start frame does not exceed the end frame. -/
theorem get_start_and_end_frame_spec (fps s e : ℚ) (hfps : 0 < fps) (hs : 0 ≤ s)
    (hse : s < e) :
    get_start_and_end_frame fps s e = (⌊fps * s⌋, ⌊fps * e⌋) ∧
    (get_start_and_end_frame fps s e).1 ≤ (get_start_and_end_frame fps s e).2 := by
  have h1 : (0 : ℚ) ≤ fps * s := mul_nonneg hfps.le hs
  have h2 : (0 : ℚ) ≤ fps * e := mul_nonneg hfps.le (hs.trans hse.le)
  have hmono : ⌊fps * s⌋ ≤ ⌊fps * e⌋ :=
    Int.floor_le_floor (mul_le_mul_of_nonneg_left hse.le hfps.le)
  refine ⟨?_, ?_⟩ <;>
    simp [get_start_and_end_frame, pyInt_eq_floor h1, pyInt_eq_floor h2, hmono]

theorem get_start_and_end_frame_spec_witness :
    (0 : ℚ) < 30 ∧ (0 : ℚ) ≤ 1 ∧ (1 : ℚ) < 3 ∧
    (get_start_and_end_frame 30 1 3 = (⌊(30 : ℚ) * 1⌋, ⌊(30 : ℚ) * 3⌋) ∧
     (get_start_and_end_frame 30 1 3).1 ≤ (get_start_and_end_frame 30 1 3).2) :=
  ⟨by norm_num, by norm_num, by norm_num,
    get_start_and_end_frame_spec 30 1 3 (by norm_num) (by norm_num) (by norm_num)⟩

/-- C3: for a native frame of width W and height H and a requested max
dimension m with 0 < m ≤ max(W, H), `get_output_dimensions` returns
(floor(W·m / max(W, H)), floor(H·m / max(W, H))). -/
theorem get_output_dimensions_scales (W H : ℕ) (m : ℤ) (hm : 0 < m)
    (hle : m ≤ ((max W H : ℕ) : ℤ)) :
    get_output_dimensions (some (W, H)) (some m) =
      .ok (⌊(W : ℚ) * m / ((max W H : ℕ) : ℚ)⌋, ⌊(H : ℚ) * m / ((max W H : ℕ) : ℚ)⌋) := by
  have hne : m ≠ 0 := hm.ne'
  have hng : ¬ (m > ((max W H : ℕ) : ℤ)) := not_lt.mpr hle
  have hmid : (0 : ℚ) < ((max W H : ℕ) : ℚ) := by
    exact_mod_cast lt_of_lt_of_le hm hle
  have hmq : (0 : ℚ) ≤ (m : ℚ) := by exact_mod_cast hm.le
  have hq1 : (0 : ℚ) ≤ (W : ℚ) * ((m : ℚ) / ((max W H : ℕ) : ℚ)) :=
    mul_nonneg (Nat.cast_nonneg W) (div_nonneg hmq hmid.le)
  have hq2 : (0 : ℚ) ≤ (H : ℚ) * ((m : ℚ) / ((max W H : ℕ) : ℚ)) :=
    mul_nonneg (Nat.cast_nonneg H) (div_nonneg hmq hmid.le)
  simp only [get_output_dimensions, if_pos hne, if_neg hng, Int.cast_natCast,
    pyInt_eq_floor hq1, pyInt_eq_floor hq2, mul_div_assoc]

theorem get_output_dimensions_scales_witness :
    (0 : ℤ) < 320 ∧ (320 : ℤ) ≤ ((max 640 480 : ℕ) : ℤ) ∧
    get_output_dimensions (some (640, 480)) (some 320) =
      .ok (⌊(640 : ℚ) * 320 / ((max 640 480 : ℕ) : ℚ)⌋,
           ⌊(480 : ℚ) * 320 / ((max 640 480 : ℕ) : ℚ)⌋) :=
  ⟨by norm_num, by norm_num, get_output_dimensions_scales 640 480 320 (by norm_num) (by norm_num)⟩

/-- C9: a requested max dimension of 0 is falsy in Python, so
`get_output_dimensions` skips the oversize check and the scaling and
returns the native dimensions, exactly as when no max dimension is
given. -/
theorem max_dimension_zero_passthrough (W H : ℕ) :
    get_output_dimensions (some (W, H)) (some 0) = .ok ((W : ℤ), (H : ℤ)) ∧
    get_output_dimensions (some (W, H)) (some 0) =
      get_output_dimensions (some (W, H)) none := by
  constructor <;> rfl

/-- C6 counterexample: in a run with no max dimension the output
dimension equals the native dimension, yet the per-frame pipeline still
performs a resize operation, because the Python test `if dimension:` on
a two-element tuple is always true; so "no resize operation is performed
downstream" fails. -/
theorem resize_always_performed_cex :
    get_output_dimensions (some (640, 480)) none = .ok (640, 480) ∧
    Img.hasResize (processFrame (640, 480) false (Img.raw 0)) = true := by
  constructor <;> rfl

/-- C6 amended: when no max dimension is requested the output dimension
equals the native dimension, but the frame pipeline still invokes the
resize operation on every frame, with the native dimension as the
target (a semantic no-op, not a skipped operation). -/
theorem no_max_dimension_passthrough (W H : ℕ) (f : Img) :
    get_output_dimensions (some (W, H)) none = .ok ((W : ℤ), (H : ℤ)) ∧
    processFrame ((W : ℤ), (H : ℤ)) false f =
      Img.resize (Img.cvtColor f) ((W : ℤ), (H : ℤ)) := by
  constructor <;> rfl

lemma fitAux_descend (ts : ℚ → (ℕ × ℕ) × ℕ) (mw dh : ℤ) (k : ℕ) (hk : k ≤ 99)
    (hmin : ∀ j < k, dh < ((ts (10 - (j : ℚ) / 10)).1.2 : ℤ)) :
    fitAux ts mw dh 100 10 = fitAux ts mw dh (100 - k) (10 - (k : ℚ) / 10) := by
  induction k with
  | zero => norm_num
  | succ k ih =>
    rw [ih (by omega) (fun j hj => hmin j (by omega))]
    have hh : dh < ((ts (10 - (k : ℚ) / 10)).1.2 : ℤ) := hmin k (by omega)
    rw [show 100 - k = (99 - k) + 1 from by omega]
    simp only [fitAux]
    rw [if_pos hh]
    have hk98 : (k : ℚ) ≤ 98 := by exact_mod_cast (show k ≤ 98 by omega)
    have hdiv : (k : ℚ) / 10 ≤ 98 / 10 :=
      (div_le_div_iff_of_pos_right (by norm_num : (0 : ℚ) < 10)).mpr hk98
    have hpos : ¬ ((10 : ℚ) - (k : ℚ) / 10 - 1 / 10 ≤ 0) := by rw [not_le]; linarith
    rw [if_neg hpos]
    rw [show 100 - (k + 1) = 99 - k from by omega]
    congr 1
    push_cast
    ring

/-- C5: the caption fitter searches monotonically downward from scale 10
in steps of 0.1.  If `k` indexes the first scale `10 - k/10` whose
rendered height does not exceed the target height, then on success the
call returns exactly that scale (which is ≤ 10) together with its
bounding box and baseline, and if the rendered width at that first
height-satisfying scale exceeds the max line width it fails with the
"won't fit" error instead of shrinking the scale further. -/
theorem find_subtitle_info_spec (ts : ℚ → (ℕ × ℕ) × ℕ) (dim : ℤ × ℤ) (dh : ℤ)
    (k : ℕ) (hk : k ≤ 99)
    (hmin : ∀ j < k, dh < ((ts (10 - (j : ℚ) / 10)).1.2 : ℤ))
    (hfit : ((ts (10 - (k : ℚ) / 10)).1.2 : ℤ) ≤ dh) :
    ((10 : ℚ) - (k : ℚ) / 10 ≤ 10) ∧
    (((ts (10 - (k : ℚ) / 10)).1.1 : ℤ) ≤ dim.1 →
      find_subtitle_info ts dim dh =
        .ok ((ts (10 - (k : ℚ) / 10)).1, (ts (10 - (k : ℚ) / 10)).2,
             10 - (k : ℚ) / 10)) ∧
    (dim.1 < ((ts (10 - (k : ℚ) / 10)).1.1 : ℤ) →
      find_subtitle_info ts dim dh = .error .wontFit) := by
  have hreach := fitAux_descend ts dim.1 dh k hk hmin
  rw [show 100 - k = (99 - k) + 1 from by omega] at hreach
  refine ⟨sub_le_self 10 (by positivity), ?_, ?_⟩
  · intro hw
    unfold find_subtitle_info
    rw [hreach]
    simp only [fitAux]
    rw [if_neg (not_lt.mpr hfit), if_neg (not_lt.mpr hw)]
  · intro hw
    unfold find_subtitle_info
    rw [hreach]
    simp only [fitAux]
    rw [if_neg (not_lt.mpr hfit), if_pos hw]

/-- Constant text measurement used as the caption-fitter witness. -/
def tsConst : ℚ → (ℕ × ℕ) × ℕ := fun _ => ((5, 3), 1)

theorem find_subtitle_info_spec_witness :
    (0 : ℕ) ≤ 99 ∧
    (∀ j : ℕ, j < 0 → (15 : ℤ) < ((tsConst (10 - (j : ℚ) / 10)).1.2 : ℤ)) ∧
    ((tsConst (10 - ((0 : ℕ) : ℚ) / 10)).1.2 : ℤ) ≤ 15 ∧
    (((10 : ℚ) - ((0 : ℕ) : ℚ) / 10 ≤ 10) ∧
     (((tsConst (10 - ((0 : ℕ) : ℚ) / 10)).1.1 : ℤ) ≤ (10, 10).1 →
       find_subtitle_info tsConst (10, 10) 15 =
         .ok ((tsConst (10 - ((0 : ℕ) : ℚ) / 10)).1,
              (tsConst (10 - ((0 : ℕ) : ℚ) / 10)).2, 10 - ((0 : ℕ) : ℚ) / 10)) ∧
     ((10, 10).1 < ((tsConst (10 - ((0 : ℕ) : ℚ) / 10)).1.1 : ℤ) →
       find_subtitle_info tsConst (10, 10) 15 = .error .wontFit)) :=
  ⟨by norm_num, fun j hj => absurd hj (Nat.not_lt_zero j), by norm_num [tsConst],
    find_subtitle_info_spec tsConst (10, 10) 15 0 (by norm_num)
      (fun j hj => absurd hj (Nat.not_lt_zero j)) (by norm_num [tsConst])⟩

lemma Decoder.read_lt {N : ℕ} {d : Decoder} (h : d.nextFrame < N) :
    d.read N = (some d.nextFrame, ⟨d.nextFrame + 1⟩) := if_pos h

lemma Decoder.read_ge {N : ℕ} {d : Decoder} (h : N ≤ d.nextFrame) :
    d.read N = (none, d) := if_neg (not_lt.mpr h)

lemma gifLoop_succ (N K : ℕ) (iz : ℤ) (d : Decoder) :
    gifLoop N (K + 1) iz d =
      match d.read N with
      | (none, _) => ([], .error (.readFail iz))
      | (some frame, d1) =>
        let rest := gifLoop N K (iz + 2) (skipReads N 1 d1)
        (frame :: rest.1, rest.2) := rfl

lemma gifLoop_ok (N : ℕ) :
    ∀ (K i : ℕ) (iz : ℤ), (∀ t < K, i + 2 * t < N) →
      gifLoop N K iz ⟨i⟩ = (List.range' i K 2, .ok ()) := by
  intro K
  induction K with
  | zero => intro i iz _; rfl
  | succ K ih =>
    intro i iz h
    have h0 : i < N := by have := h 0 (by omega); omega
    rw [gifLoop_succ, Decoder.read_lt h0]
    cases K with
    | zero =>
      show (i :: ([] : List ℕ), Except.ok ()) = (List.range' i 1 2, .ok ())
      rfl
    | succ K' =>
      have h1 : i + 1 < N := by have := h 1 (by omega); omega
      have hskip : skipReads N 1 (⟨i + 1⟩ : Decoder) = ⟨i + 2⟩ := by
        simp [skipReads, Decoder.read_lt h1]
      have ih2 := ih (i + 2) (iz + 2) (fun t ht => by have := h (t + 1) (by omega); omega)
      show (i :: (gifLoop N (K' + 1) (iz + 2) (skipReads N 1 ⟨i + 1⟩)).1,
            (gifLoop N (K' + 1) (iz + 2) (skipReads N 1 ⟨i + 1⟩)).2) = _
      rw [hskip, ih2]
      conv_rhs => rw [List.range'_succ]

lemma gifLoop_fails (N : ℕ) :
    ∀ (T K i : ℕ) (iz : ℤ), T < K → (∀ s < T, i + 2 * s < N) → N ≤ i + 2 * T →
      gifLoop N K iz ⟨i⟩ = (List.range' i T 2, .error (.readFail (iz + 2 * (T : ℤ)))) := by
  intro T
  induction T with
  | zero =>
    intro K i iz hTK hs hfail
    obtain ⟨K', rfl⟩ : ∃ K', K = K' + 1 := ⟨K - 1, by omega⟩
    rw [gifLoop_succ, Decoder.read_ge (by simpa using hfail)]
    show ([], Except.error (GifferError.readFail iz)) = _
    norm_num
  | succ T ih =>
    intro K i iz hTK hs hfail
    obtain ⟨K', rfl⟩ : ∃ K', K = K' + 1 := ⟨K - 1, by omega⟩
    have h0 : i < N := by have := hs 0 (by omega); omega
    rw [gifLoop_succ, Decoder.read_lt h0]
    by_cases h1 : i + 1 < N
    · have hskip : skipReads N 1 (⟨i + 1⟩ : Decoder) = ⟨i + 2⟩ := by
        simp [skipReads, Decoder.read_lt h1]
      have ih2 := ih K' (i + 2) (iz + 2) (by omega)
        (fun s hsT => by have := hs (s + 1) (by omega); omega) (by omega)
      show (i :: (gifLoop N K' (iz + 2) (skipReads N 1 ⟨i + 1⟩)).1,
            (gifLoop N K' (iz + 2) (skipReads N 1 ⟨i + 1⟩)).2) = _
      rw [hskip, ih2]
      conv_rhs => rw [List.range'_succ]
      have hidx : iz + 2 + 2 * ((T : ℕ) : ℤ) = iz + 2 * (((T + 1 : ℕ)) : ℤ) := by
        push_cast
        ring
      rw [hidx]
    · have hT0 : T = 0 := by
        by_contra hne
        have := hs 1 (by omega)
        omega
      subst hT0
      obtain ⟨K'', rfl⟩ : ∃ K'', K' = K'' + 1 := ⟨K' - 1, by omega⟩
      have hskip : skipReads N 1 (⟨i + 1⟩ : Decoder) = ⟨i + 1⟩ := by
        simp [skipReads, Decoder.read_ge (show N ≤ i + 1 by omega)]
      show (i :: (gifLoop N (K'' + 1) (iz + 2) (skipReads N 1 ⟨i + 1⟩)).1,
            (gifLoop N (K'' + 1) (iz + 2) (skipReads N 1 ⟨i + 1⟩)).2) = _
      rw [hskip, gifLoop_succ, Decoder.read_ge (show N ≤ i + 1 by omega)]
      show (i :: ([] : List ℕ), Except.error (GifferError.readFail (iz + 2))) = _
      rw [List.range'_succ]
      norm_num

/-- C1: after seeking the decode cursor to start_frame − 1, the first
frame read and appended is the frame with index start_frame, and the
appended frames are exactly start_frame, start_frame + 2, ..., bounded
by end_frame, with end_frame itself included when it lies on the stepped
grid (decoder contract modelled from the spec, section 4.4 SEEK). -/
theorem make_gif_covers (N start endF : ℕ) (h1 : start ≤ endF) (h2 : endF < N) :
    make_gif_frames N start endF =
      (List.range' start ((endF - start) / 2 + 1) 2, .ok ()) ∧
    (List.range' start ((endF - start) / 2 + 1) 2).head? = some start ∧
    (∀ x ∈ List.range' start ((endF - start) / 2 + 1) 2, start ≤ x ∧ x ≤ endF) ∧
    ((endF - start) % 2 = 0 → endF ∈ List.range' start ((endF - start) / 2 + 1) 2) := by
  have hcount : gifIterCount (start : ℤ) (endF : ℤ) = (endF - start) / 2 + 1 := by
    unfold gifIterCount FRAME_STEP_SIZE
    rw [if_pos (by exact_mod_cast h1)]
    omega
  have hseek : Decoder.seek ((start : ℤ) - 1) = ⟨start⟩ := by
    unfold Decoder.seek
    congr 1
    omega
  refine ⟨?_, ?_, ?_, ?_⟩
  · unfold make_gif_frames
    rw [hcount, hseek]
    exact gifLoop_ok N _ start (start : ℤ) (fun t ht => by omega)
  · rw [List.range'_succ]
    rfl
  · intro x hx
    rw [List.mem_range'] at hx
    obtain ⟨t, ht, rfl⟩ := hx
    omega
  · intro hpar
    rw [List.mem_range']
    exact ⟨(endF - start) / 2, by omega, by omega⟩

theorem make_gif_covers_witness :
    (30 : ℕ) ≤ 90 ∧ (90 : ℕ) < 300 ∧
    (make_gif_frames 300 30 90 = (List.range' 30 ((90 - 30) / 2 + 1) 2, .ok ()) ∧
     (List.range' 30 ((90 - 30) / 2 + 1) 2).head? = some 30 ∧
     (∀ x ∈ List.range' 30 ((90 - 30) / 2 + 1) 2, 30 ≤ x ∧ x ≤ 90) ∧
     ((90 - 30) % 2 = 0 → 90 ∈ List.range' 30 ((90 - 30) / 2 + 1) 2)) :=
  ⟨by norm_num, by norm_num, make_gif_covers 300 30 90 (by norm_num) (by norm_num)⟩

/-- C7: if the read of the target frame start_frame + 2T fails (the
source runs out of frames there), the pipeline stops with an error
identifying exactly that frame index, and the frames appended to the
encoder are exactly the earlier targets — no recovery, no truncation
and continue. -/
theorem make_gif_read_failure (N start endF T : ℕ)
    (hT : T < gifIterCount (start : ℤ) (endF : ℤ))
    (hmin : ∀ s < T, start + 2 * s < N)
    (hfail : N ≤ start + 2 * T) :
    make_gif_frames N start endF =
      (List.range' start T 2, .error (.readFail ((start : ℤ) + 2 * (T : ℤ)))) := by
  have hseek : Decoder.seek ((start : ℤ) - 1) = ⟨start⟩ := by
    unfold Decoder.seek
    congr 1
    omega
  unfold make_gif_frames
  rw [hseek]
  exact gifLoop_fails N T _ start (start : ℤ) hT hmin hfail

theorem make_gif_read_failure_witness :
    (2 : ℕ) < gifIterCount ((2 : ℕ) : ℤ) ((10 : ℕ) : ℤ) ∧
    (∀ s < 2, 2 + 2 * s < 5) ∧ (5 : ℕ) ≤ 2 + 2 * 2 ∧
    make_gif_frames 5 2 10 =
      (List.range' 2 2 2, .error (.readFail (((2 : ℕ) : ℤ) + 2 * ((2 : ℕ) : ℤ)))) :=
  ⟨by decide, by decide, by norm_num,
    make_gif_read_failure 5 2 10 2 (by decide) (by decide) (by norm_num)⟩

/-- C4: when the requested max dimension exceeds the larger native
dimension, `get_output_dimensions` fails with the oversize error, the
whole invocation fails with that error, and the gif writer is never
opened, so no output file is written and no upscaling is performed. -/
theorem get_output_dimensions_oversize (W H : ℕ) (m : ℤ)
    (hm : ((max W H : ℕ) : ℤ) < m) :
    get_output_dimensions (some (W, H)) (some m) = .error .cantScaleLarger ∧
    ∀ (fps s e : ℚ) (N : ℕ) (color font : String)
      (sub : Option (ℚ → (ℕ × ℕ) × ℕ)) (tsz : ℤ),
      giffer fps s e (some (W, H)) N (some m) color font sub tsz =
        ([Effect.decodeFrame], .error .cantScaleLarger) ∧
      Effect.openWriter ∉
        (giffer fps s e (some (W, H)) N (some m) color font sub tsz).1 := by
  have hpos : (0 : ℤ) < m := lt_of_le_of_lt (Int.natCast_nonneg _) hm
  have hfirst : get_output_dimensions (some (W, H)) (some m) = .error .cantScaleLarger := by
    simp only [get_output_dimensions]
    rw [if_pos hpos.ne', if_pos hm]
  refine ⟨hfirst, fun fps s e N color font sub tsz => ?_⟩
  have hg : giffer fps s e (some (W, H)) N (some m) color font sub tsz =
      ([Effect.decodeFrame], .error .cantScaleLarger) := by
    simp only [giffer, hfirst]
    rfl
  exact ⟨hg, by rw [hg]; decide⟩

theorem get_output_dimensions_oversize_witness :
    ((max 640 480 : ℕ) : ℤ) < 1000 ∧
    (get_output_dimensions (some (640, 480)) (some 1000) = .error .cantScaleLarger ∧
     ∀ (fps s e : ℚ) (N : ℕ) (color font : String)
       (sub : Option (ℚ → (ℕ × ℕ) × ℕ)) (tsz : ℤ),
       giffer fps s e (some (640, 480)) N (some 1000) color font sub tsz =
         ([Effect.decodeFrame], .error .cantScaleLarger) ∧
       Effect.openWriter ∉
         (giffer fps s e (some (640, 480)) N (some 1000) color font sub tsz).1) :=
  ⟨by norm_num, get_output_dimensions_oversize 640 480 1000 (by norm_num)⟩

/-- C8 counterexample: with an unknown color name the invocation does
fail and creates no output, but a frame has already been decoded (by
`get_output_dimensions`, which runs before the color lookup), so the
claim that no frame is decoded before the failure is false. -/
theorem unknown_color_after_first_decode_cex :
    (giffer 30 1 3 (some (640, 480)) 300 none ("magenta") ("simplex") none 15).2 =
      .error (.unsupportedColor ("magenta")) ∧
    Effect.decodeFrame ∈
      (giffer 30 1 3 (some (640, 480)) 300 none ("magenta") ("simplex") none 15).1 := by
  refine ⟨rfl, ?_⟩
  show Effect.decodeFrame ∈ [Effect.decodeFrame]
  exact List.mem_singleton_self _

/-- C8 amended: an unknown color name (or, with a valid color, an
unknown font name) makes the invocation fail with the corresponding
descriptive error before the gif writer is opened, so no output file is
created — but only after the dimension calculator has already decoded
the first frame of the source. -/
theorem unknown_color_or_font_rejected (fps s e : ℚ) (W H : ℕ) (md : Option ℤ)
    (N : ℕ) (color font : String) (sub : Option (ℚ → (ℕ × ℕ) × ℕ)) (tsz : ℤ)
    (d : ℤ × ℤ) (hdim : get_output_dimensions (some (W, H)) md = .ok d) :
    (colors (pyLower color) = none →
      giffer fps s e (some (W, H)) N md color font sub tsz =
        ([Effect.decodeFrame], .error (.unsupportedColor color))) ∧
    (∀ rgb, colors (pyLower color) = some rgb → font_faces (pyLower font) = none →
      giffer fps s e (some (W, H)) N md color font sub tsz =
        ([Effect.decodeFrame], .error (.unsupportedFont font))) := by
  constructor
  · intro hc
    simp only [giffer, hdim, hc]
    rfl
  · intro rgb hc hf
    simp only [giffer, hdim, hc, hf]
    rfl

theorem unknown_color_or_font_rejected_witness :
    get_output_dimensions (some (640, 480)) none = .ok (640, 480) ∧
    ((colors (pyLower ("magenta")) = none →
       giffer 30 1 3 (some (640, 480)) 300 none ("magenta") ("simplex") none 15 =
         ([Effect.decodeFrame], .error (.unsupportedColor ("magenta")))) ∧
     (∀ rgb, colors (pyLower ("magenta")) = some rgb →
       font_faces (pyLower ("simplex")) = none →
       giffer 30 1 3 (some (640, 480)) 300 none ("magenta") ("simplex") none 15 =
         ([Effect.decodeFrame], .error (.unsupportedFont ("simplex"))))) :=
  ⟨rfl, unknown_color_or_font_rejected 30 1 3 640 480 none 300 ("magenta") ("simplex")
    none 15 (640, 480) rfl⟩

/-- C10 counterexample: an invocation with end time < start time whose
frame indices coincide (fps = 1, start = 0.5, end = 0.4, both mapping to
frame 0) runs the frame loop once and appends a frame, so "the frame
loop iterates zero times" fails for this end < start invocation. -/
theorem end_before_start_still_appends_cex :
    (2 : ℚ) / 5 < 1 / 2 ∧
    giffer 1 (1 / 2) (2 / 5) (some (4, 4)) 10 none ("white") ("simplex") none 15 =
      ([Effect.decodeFrame, Effect.openWriter, Effect.append 0, Effect.closeWriter],
       .ok ()) := by
  refine ⟨by norm_num, ?_⟩
  have h1 : get_start_and_end_frame 1 (1 / 2) (2 / 5) = (0, 0) := by
    unfold get_start_and_end_frame
    norm_num [pyInt]
  simp only [giffer, h1]
  rfl

/-- C10 amended: whenever the computed end frame is strictly below the
computed start frame (which end < start alone does not guarantee), the
frame loop iterates zero times, no error is raised, the writer is still
opened and closed with zero appended frames, and the invocation
succeeds. -/
theorem end_frame_before_start_frame_empty_output (fps s e : ℚ) (W H : ℕ)
    (md : Option ℤ) (N : ℕ) (color font : String) (tsz : ℤ) (d : ℤ × ℤ)
    (rgb : ℕ × ℕ × ℕ) (ff : Cv2Font)
    (hlt : pyInt (fps * e) < pyInt (fps * s))
    (hdim : get_output_dimensions (some (W, H)) md = .ok d)
    (hc : colors (pyLower color) = some rgb)
    (hf : font_faces (pyLower font) = some ff) :
    giffer fps s e (some (W, H)) N md color font none tsz =
      ([Effect.decodeFrame, Effect.openWriter, Effect.closeWriter], .ok ()) := by
  have hcount : gifIterCount (pyInt (fps * s)) (pyInt (fps * e)) = 0 := by
    unfold gifIterCount
    rw [if_neg (not_le.mpr hlt)]
  simp only [giffer, hdim, hc, hf, make_gif_effects, make_gif_frames,
    get_start_and_end_frame, hcount, gifLoop]
  rfl

theorem end_frame_before_start_frame_empty_output_witness :
    pyInt ((30 : ℚ) * 1) < pyInt ((30 : ℚ) * 2) ∧
    get_output_dimensions (some (640, 480)) none = .ok (640, 480) ∧
    colors (pyLower ("white")) = some (255, 255, 255) ∧
    font_faces (pyLower ("simplex")) = some .FONT_HERSHEY_SIMPLEX ∧
    giffer 30 2 1 (some (640, 480)) 10 none ("white") ("simplex") none 15 =
      ([Effect.decodeFrame, Effect.openWriter, Effect.closeWriter], .ok ()) :=
  ⟨by norm_num [pyInt], rfl, rfl, rfl,
    end_frame_before_start_frame_empty_output 30 2 1 640 480 none 10 ("white")
      ("simplex") 15 (640, 480) (255, 255, 255) .FONT_HERSHEY_SIMPLEX
      (by norm_num [pyInt]) rfl rfl rfl⟩
